import Mathlib

/-!
Verification development for the BattlePoker repository.

The JavaScript sources are shallowly embedded below:
* `src/Javacript/Poker.js` — hand evaluation (`evaluateHand`, embedded as
  `evaluateHandScore` for the scoring part and `showdown` for the winner
  block), the split/win pot arithmetic (`youWin`, embedded as `youWinPot`),
  and the community-card rejection-sampling draw loop
  (`buildCommunityCards`, embedded as `buildStep`/`buildRun`).
* The CFR decision engine (`CFRPlayer` and the standalone regret-matching
  module) — `calculateHandStrength`, `calculateOuts`,
  `getImprovementFactor`, `isValidAction`, `calculateReward`,
  `calculateCounterfactualRewards`, `selectAction` (both variants) and
  `updateRegrets`.

JavaScript numbers are modelled as rationals, extended with the IEEE
specials `-Infinity` / `Infinity` / `NaN` (type `JSNum`) where the source
manipulates `Number.NEGATIVE_INFINITY`.  JavaScript array indexing that can
see `undefined` is modelled with `Option`/defaults as noted at each site.
-/

namespace BattlePoker

/-! ## JavaScript helpers

`Array.prototype.indexOf` / `lastIndexOf` return the index or `-1`;
`getOccurrence` is Poker.js's counting helper (lines 139-143);
`Math.max(...l)` over a possibly-empty list is `-Infinity` when empty,
modelled with `Option ℤ` (`none` standing for `-Infinity`);
`Array.prototype.sort((a,b) => a-b)` sorts
numerically ascending, modelled by insertion sort (same value sequence). -/

def jsIndexOfAux [DecidableEq α] : List α → α → ℤ → ℤ
  | [], _, _ => -1
  | y :: ys, x, k => if y = x then k else jsIndexOfAux ys x (k + 1)

def jsIndexOf [DecidableEq α] (l : List α) (x : α) : ℤ := jsIndexOfAux l x 0

def jsLastIndexOfAux [DecidableEq α] : List α → α → ℤ → ℤ → ℤ
  | [], _, _, best => best
  | y :: ys, x, k, best => jsLastIndexOfAux ys x (k + 1) (if y = x then k else best)

def jsLastIndexOf [DecidableEq α] (l : List α) (x : α) : ℤ := jsLastIndexOfAux l x 0 (-1)

def getOccurrence (l : List ℤ) (v : ℤ) : ℕ :=
  l.foldr (fun x acc => if x = v then acc + 1 else acc) 0

def jsMaxInts (l : List ℤ) : Option ℤ :=
  l.foldl (fun acc x =>
    match acc with
    | none => some x
    | some m => some (max m x)) none

def insertSorted (x : ℤ) : List ℤ → List ℤ
  | [] => [x]
  | y :: ys => if x ≤ y then x :: y :: ys else y :: insertSorted x ys

def sortInts (l : List ℤ) : List ℤ := l.foldr insertSorted []

/-- `l[j]` for an integer index, `none` when out of bounds (JS `undefined`). -/
def getZ (l : List ℤ) (j : ℤ) : Option ℤ :=
  if j < 0 then none else l.get? j.toNat

/-! ## Card model (Poker.js)

A card object has a `value` (one of `cardHeirarchy`) and a `suit`. -/

structure Card where
  value : String
  suit : String
deriving DecidableEq, Repr

def cardHeirarchy : List String :=
  ["two", "three", "four", "five", "six", "seven", "eight", "nine", "ten",
   "jack", "queen", "king", "ace"]

def suitArr : List String := ["diamonds", "hearts", "clubs", "spades"]

/-- An element of the `communityCards` array.  Normally a card object, but
`evaluateHand` (Poker.js lines 423, 430, 447) assigns plain numbers into
this array, and out-of-range index assignment can leave holes, so the
element type is a sum. -/
inductive CCElem where
  | card : Card → CCElem
  | num : ℤ → CCElem
  | undef : CCElem
deriving DecidableEq, Repr

/-- A possibly-corrupt card as read back out of an array: reading `.value`
or `.suit` of a number or hole yields `undefined`, modelled as `none`. -/
structure JCard where
  value : Option String
  suit : Option String
deriving DecidableEq, Repr

def CCElem.toJCard : CCElem → JCard
  | .card c => ⟨some c.value, some c.suit⟩
  | _ => ⟨none, none⟩

/-- JS array index assignment `l[k] = v`: in-range writes replace, writes
past the end extend the array with holes. -/
def jsSetCC (l : List CCElem) (k : ℕ) (v : CCElem) : List CCElem :=
  if k < l.length then l.set k v
  else l ++ List.replicate (k - l.length) CCElem.undef ++ [v]

/-- The game state touched by `evaluateHand` and the showdown block:
the module-level arrays of Poker.js (lines 16-35). `plyrPairs i` is
`plyr1Pair` … `plyr4Pair`; `bestHoleCards` is pushed once per player during
the game-step-1 evaluations, so it has four entries (one pair of hole-card
rank indices, low first) by showdown time. -/
structure GameSt where
  communityCards : List CCElem
  resultList : Fin 4 → ℤ
  compareCards : Fin 4 → ℤ
  playerHighCards : Fin 4 → ℤ
  playerStraightHighCard : Fin 4 → ℤ
  plyrPairs : Fin 4 → List ℤ
  bestHoleCards : List (ℤ × ℤ)
  activePlayers : List ℕ
  playersHands : Fin 4 → List Card

def listOf4 (f : Fin 4 → ℤ) : List ℤ := [f 0, f 1, f 2, f 3]

/-- `Math.max(...)` over the four entries of a player-indexed array. -/
def jsMax4 (f : Fin 4 → ℤ) : ℤ := max (max (max (f 0) (f 1)) (f 2)) (f 3)

def optIndexOf (v : Option String) : ℤ :=
  match v with
  | some s => jsIndexOf cardHeirarchy s
  | none => -1

/-- The scoring portion of `evaluateHand` (Poker.js lines 246-507): builds
the evaluated card set for the given betting step, tallies ranks and suits,
detects pairs/trips/quads/straight/flush/full house/straight flush/royal
flush with the source's precedence patches, applies the active-player mask
(lines 461-466) and the high-card `compareCards` fix-up (lines 469-472),
and records `bestHoleCards` at game step 1 (lines 484-507).  DOM output,
the betting heuristics (lines 642-784) and the local `valueArr`
three-pair normalization (lines 520-526, which touches only the local
tally) are display/betting-only and omitted.  Note the source's
assignments into `communityCards` (lines 423, 430, 447) are kept as-is. -/
def evaluateHandScore (iteration : Fin 4) (gameStep : ℕ) (st : GameSt) : GameSt :=
  let hand := st.playersHands iteration
  let holeJ : ℕ → JCard := fun k =>
    match hand.get? k with
    | some c => ⟨some c.value, some c.suit⟩
    | none => ⟨none, none⟩
  let ccAt : ℕ → JCard := fun k =>
    match st.communityCards.get? k with
    | some e => e.toJCard
    | none => ⟨none, none⟩
  let cardsArr : List JCard :=
    if gameStep = 2 then [holeJ 0, holeJ 1, ccAt 0, ccAt 1, ccAt 2]
    else if gameStep = 3 then [holeJ 0, holeJ 1, ccAt 0, ccAt 1, ccAt 2, ccAt 3]
    else if gameStep = 4 then [holeJ 0, holeJ 1, ccAt 0, ccAt 1, ccAt 2, ccAt 3, ccAt 4]
    else [holeJ 0, holeJ 1]
  -- lines 297-355: cardIndexes (with the -1 ace sentinel) and the tallies
  let cardIndexes : List ℤ := cardsArr.foldl (fun acc c =>
    let acc := acc ++ [optIndexOf c.value]
    if c.value = some "ace" then acc ++ [-1] else acc) []
  let valueArr : List ℤ :=
    cardHeirarchy.map (fun s => ((cardsArr.filter (fun c => c.value = some s)).length : ℤ))
  let countSuit : String → ℤ := fun s =>
    ((cardsArr.filter (fun c => c.suit = some s)).length : ℤ)
  let spades := countSuit "spades"
  let hearts := countSuit "hearts"
  let diamonds := countSuit "diamonds"
  let clubs := countSuit "clubs"
  -- lines 358-394: the rank loop (high card, pair collection, trips, quads)
  let loop1 := (List.range 13).foldl (fun (acc : ℤ × ℤ × ℤ × List ℤ) i =>
    let rl := acc.1
    let cc := acc.2.1
    let phc := acc.2.2.1
    let pairs := acc.2.2.2
    let va := valueArr.getD i 0
    let phc := if va > 0 ∧ gameStep = 1 then (i : ℤ) else phc
    let cc := if va > 0 ∧ rl = 0 then (i : ℤ) else cc
    let pairs := if va = 2 then pairs ++ [(i : ℤ)] else pairs
    let cc := if va = 2 ∧ rl < 1 then jsLastIndexOf valueArr 2 else cc
    let rl := if va = 2 ∧ rl < 1 then 1 else rl
    let cc := if va = 3 ∧ rl < 3 then jsLastIndexOf valueArr 3 else cc
    let rl := if va = 3 ∧ rl < 3 then 3 else rl
    let cc := if va = 4 ∧ rl < 7 then jsLastIndexOf valueArr 4 else cc
    let rl := if va = 4 ∧ rl < 7 then 7 else rl
    (rl, cc, phc, pairs))
    (st.resultList iteration, st.compareCards iteration,
     st.playerHighCards iteration, st.plyrPairs iteration)
  let rl1 := loop1.1
  let cc1 := loop1.2.1
  let phc1 := loop1.2.2.1
  let pairs1 := loop1.2.2.2
  -- lines 395-399: two pair
  let cc2 := if getOccurrence valueArr 2 > 1 ∧ rl1 < 2 then jsLastIndexOf valueArr 2 else cc1
  let rl2 := if getOccurrence valueArr 2 > 1 ∧ rl1 < 2 then 2 else rl1
  -- lines 400-426: first straight scan over the sorted card indexes
  let sorted := sortInts cardIndexes
  let loop2 := (List.range sorted.length).foldl
    (fun (acc : Bool × ℤ × ℤ × List CCElem) i =>
      let straight := acc.1
      let pshc := acc.2.1
      let rl := acc.2.2.1
      let comm := acc.2.2.2
      let a0 := sorted.getD i 0
      let hit5 : Prop := sorted.get? (i + 1) = some (a0 + 1) ∧
        sorted.get? (i + 2) = some (a0 + 2) ∧
        sorted.get? (i + 3) = some (a0 + 3) ∧
        sorted.get? (i + 4) = some (a0 + 4)
      if hit5 then
        let top := sorted.getD (i + 4) 0
        (true,
         if top > pshc then top else pshc,
         if rl < 4 then 4 else rl,
         if rl < 4 then jsSetCC comm iteration.val (CCElem.num top) else comm)
      else (straight, pshc, rl, comm))
    (false, st.playerStraightHighCard iteration, rl2, st.communityCards)
  let straight1 := loop2.1
  let pshc1 := loop2.2.1
  let rl3 := loop2.2.2.1
  let comm1 := loop2.2.2.2
  -- lines 427-433: second straight scan ("ATTEMPT TO FIX PAIRS OVERRIDING
  -- STRAIGHT"), i running from -1 to 12; out-of-range reads are undefined
  -- and fail the `> 0` tests, modelled by `getZ`
  let vaPos : ℤ → Bool := fun j =>
    match getZ valueArr j with
    | some v => v > 0
    | none => false
  let loop3 := (List.range 14).foldl
    (fun (acc : Bool × ℤ × List CCElem) k =>
      let straight := acc.1
      let rl := acc.2.1
      let comm := acc.2.2
      let j : ℤ := (k : ℤ) - 1
      if vaPos j && vaPos (j + 1) && vaPos (j + 2) && vaPos (j + 3) && vaPos (j + 4) then
        (true, 4, jsSetCC comm iteration.val (CCElem.num ((getZ valueArr (j + 4)).getD 0)))
      else (straight, rl, comm))
    (straight1, rl3, comm1)
  let straight2 := loop3.1
  let rl4 := loop3.2.1
  let comm2 := loop3.2.2
  -- lines 434-436
  let rl5 := if rl4 < 4 ∧ straight2 = true then 4 else rl4
  -- lines 437-443: flush (note: a suit bucket of exactly 5)
  let suitedArr : List ℤ := [spades, hearts, diamonds, clubs]
  let flush := jsIndexOf suitedArr 5 ≠ -1
  let rl6 := if flush ∧ rl5 < 5 then 5 else rl5
  -- lines 444-450: full house
  let fullHouse := jsIndexOf valueArr 3 ≠ -1 ∧ jsIndexOf valueArr 2 ≠ -1
  let comm3 := if fullHouse ∧ rl6 < 6
    then jsSetCC comm2 iteration.val (CCElem.num (jsLastIndexOf valueArr 3)) else comm2
  let rl7 := if fullHouse ∧ rl6 < 6 then 6 else rl6
  -- lines 451-455: straight flush (independent flags, no suit alignment)
  let rl8 := if flush ∧ straight2 = true ∧ rl7 < 8 then 8 else rl7
  -- lines 456-460: royal flush
  let royal := valueArr.getD 8 0 > 0 ∧ valueArr.getD 9 0 > 0 ∧ valueArr.getD 10 0 > 0 ∧
    valueArr.getD 11 0 > 0 ∧ valueArr.getD 12 0 > 0
  let rl9 := if royal ∧ flush ∧ rl8 < 9 then 9 else rl8
  -- lines 461-466: mask out inactive players
  let resultList' : Fin 4 → ℤ := fun j =>
    if (j : ℕ) ∈ st.activePlayers then (if j = iteration then rl9 else st.resultList j) else -1
  let compareCards' : Fin 4 → ℤ := fun j =>
    if (j : ℕ) ∈ st.activePlayers then (if j = iteration then cc2 else st.compareCards j) else -1
  -- lines 469-472: high-card compareCards fix-up
  let compareCards'' : Fin 4 → ℤ :=
    if resultList' iteration = 0 then
      fun j => if j = iteration then jsLastIndexOf valueArr 1 else compareCards' j
    else compareCards'
  -- lines 484-507: best hole cards, pushed at game step 1 (two entries,
  -- swapped into ascending order; the hand has exactly two cards here)
  let bestHoleCards' :=
    if gameStep = 1 then
      let tempObj := (List.range 13).foldl (fun t i =>
        let va := valueArr.getD i 0
        if va ≠ 0 then t ++ [(i : ℤ)] ++ (if va > 1 then [(i : ℤ)] else []) else t) []
      let t0 := tempObj.getD 0 0
      let t1 := tempObj.getD 1 0
      st.bestHoleCards ++ [if t1 < t0 then (t1, t0) else (t0, t1)]
    else st.bestHoleCards
  { st with
    communityCards := comm3
    resultList := resultList'
    compareCards := compareCards''
    playerHighCards := fun j => if j = iteration then phc1 else st.playerHighCards j
    playerStraightHighCard := fun j => if j = iteration then pshc1 else st.playerStraightHighCard j
    plyrPairs := fun j => if j = iteration then pairs1 else st.plyrPairs j
    bestHoleCards := bestHoleCards' }

/-! ## Showdown resolution (Poker.js lines 461-466, 511-641, 762-769)

The winner block runs inside the last active player's game-step-4
evaluation.  It either returns early with a split pot (`youWin("split")`)
or falls through to line 762 where `topHand === 0` triggers
`youWin("default")` (the human wins the whole pot) and anything else
triggers `youLose(topHand)` (the player with id `topHand` is declared the
sole winner).  The local three-pair `valueArr` normalization
(lines 520-526) touches only the last evaluation's local tally, which the
winner computation never reads, and is omitted. -/

inductive Outcome where
  | split : Outcome
  | finish : ℤ → Outcome
deriving DecidableEq, Repr

/-- Active-player mask applied to `resultList` (lines 461-464). -/
def maskRL (st : GameSt) : Fin 4 → ℤ := fun i =>
  if (i : ℕ) ∈ st.activePlayers then st.resultList i else -1

/-- Active-player mask applied to `compareCards` (lines 461-465). -/
def maskCC (st : GameSt) : Fin 4 → ℤ := fun i =>
  if (i : ℕ) ∈ st.activePlayers then st.compareCards i else -1

/-- `winningHand = Math.max(...resultList)` (line 527). -/
def winningHandOf (st : GameSt) : ℤ := jsMax4 (maskRL st)

/-- `compareCards` after zeroing out the players whose category is not the
winning one (lines 532-540). -/
def narrowCC (st : GameSt) : Fin 4 → ℤ := fun i =>
  if maskRL st i ≠ winningHandOf st then -1 else maskCC st i

/-- `bestHoleCards` after the same zeroing (lines 535-536); the entry is the
pair of hole-card rank indices pushed at game step 1. -/
def narrowBHC (st : GameSt) : Fin 4 → ℤ × ℤ := fun i =>
  if maskRL st i ≠ winningHandOf st then (-1, -1) else st.bestHoleCards.getD i (-1, -1)

/-- `winningCard = Math.max(...compareCards)` (line 542). -/
def winningCardOf (st : GameSt) : ℤ := jsMax4 (narrowCC st)

/-- The straight tie split condition (lines 545-553): the highest
`playerStraightHighCard` value is shared and the human holds it. -/
def straightSplit (st : GameSt) : Prop :=
  getOccurrence (listOf4 st.playerStraightHighCard) (jsMax4 st.playerStraightHighCard) > 1 ∧
    st.playerStraightHighCard 0 = jsMax4 st.playerStraightHighCard

instance (st : GameSt) : Decidable (straightSplit st) := by
  unfold straightSplit
  infer_instance

/-- The two-pair elimination (lines 554-579): returns the mutated
`(resultList, compareCards)` after knocking out the players missing the
highest and second-highest pair values.  `playersWithPair` is carried
through because the first elimination empties lists that the second one
then tests. -/
def twoPairElim (st : GameSt) (rl cc : Fin 4 → ℤ) : (Fin 4 → ℤ) × (Fin 4 → ℤ) :=
  let allPairs : List ℤ :=
    st.plyrPairs 0 ++ st.plyrPairs 1 ++ st.plyrPairs 2 ++ st.plyrPairs 3
  let highestPair := jsMaxInts allPairs
  let pw : Fin 4 → List ℤ := st.plyrPairs
  let hit1 : Fin 4 → Prop := fun i => jsIndexOf ((pw i).map some) highestPair = -1
  let cc := fun i => if hit1 i then -1 else cc i
  let rl := fun i => if hit1 i then -1 else rl i
  let pw : Fin 4 → List ℤ := fun i => if hit1 i then [] else pw i
  let allPairs2 := allPairs.map (fun x => if some x = highestPair then (-1 : ℤ) else x)
  let secondHighestPair := jsMaxInts allPairs2
  let hit2 : Fin 4 → Prop := fun i =>
    jsIndexOf ((pw i).map some) secondHighestPair = -1
  let cc := fun i => if hit2 i then -1 else cc i
  let rl := fun i => if hit2 i then -1 else rl i
  (rl, cc)

/-- `(resultList, compareCards)` entering the `winnersList` computation:
the two-pair elimination applies only when the winning category is 2. -/
def elimRLCC (st : GameSt) : (Fin 4 → ℤ) × (Fin 4 → ℤ) :=
  if winningHandOf st = 2 then twoPairElim st (maskRL st) (narrowCC st)
  else (maskRL st, narrowCC st)

/-- `winnersList` (lines 581-590): the higher hole-card rank of each player
still carrying a non-(-1) `compareCards` entry, `-1` otherwise. -/
def winnersListOf (st : GameSt) : Fin 4 → ℤ := fun i =>
  if (elimRLCC st).2 i ≠ -1 then
    max (jsIndexOf cardHeirarchy ((st.playersHands i).getD 0 ⟨"", ""⟩).value)
        (jsIndexOf cardHeirarchy ((st.playersHands i).getD 1 ⟨"", ""⟩).value)
  else -1

def multiWinMaxOf (st : GameSt) : ℤ := jsMax4 (winnersListOf st)

/-- `topHand = winnersList.indexOf(multiWinMax)` (line 592). -/
def topHandOf (st : GameSt) : ℤ :=
  jsIndexOf (listOf4 (winnersListOf st)) (multiWinMaxOf st)

/-- The final hole-card tie-break loop (lines 598-633): entries not holding
`multiWinMax` are zeroed, `hiHole`/`lowHole`/`topHand` are threaded through
sequentially, and the split test inside reads the possibly-updated
`bestHoleCards[0][0]`. -/
def finalHoleGo (multiWinMax : ℤ) :
    List (Fin 4) → (Fin 4 → ℤ × ℤ) → ℤ → ℤ → ℤ → Outcome
  | [], _, _, _, topHand => .finish topHand
  | i :: rest, bhc, hiHole, lowHole, topHand =>
    let p0 := bhc i
    let p := if ¬(p0.1 = multiWinMax ∨ p0.2 = multiWinMax) then ((-1 : ℤ), (-1 : ℤ)) else p0
    let bhc := fun j => if j = i then p else bhc j
    let hiHole' := if p.2 > hiHole then p.2 else hiHole
    let topHand := if p.2 > hiHole then (i : ℤ) else topHand
    if p.2 = hiHole' then
      let lowHole' := if p.1 > lowHole then p.1 else lowHole
      let topHand := if p.1 > lowHole then (i : ℤ) else topHand
      if p.2 = hiHole' ∧ p.1 = lowHole' ∧ (bhc 0).1 ≠ -1 then .split
      else finalHoleGo multiWinMax rest bhc hiHole' lowHole' topHand
    else finalHoleGo multiWinMax rest bhc hiHole' lowHole topHand

def finalHoleLoop (st : GameSt) : Outcome :=
  finalHoleGo (multiWinMaxOf st) [0, 1, 2, 3] (narrowBHC st) 0 0 (topHandOf st)

/-- The showdown winner computation (lines 461-466, 520-641 and the
dispatch at lines 762-769): `.finish p` means player `p` is declared the
sole winner (`youWin("default")` when `p = 0`, `youLose(p)` otherwise);
`.split` means `youWin("split")` ran. -/
def showdown (st : GameSt) : Outcome :=
  if getOccurrence (listOf4 (maskRL st)) (winningHandOf st) = 1 then
    .finish (jsIndexOf (listOf4 (maskRL st)) (winningHandOf st))
  else if getOccurrence (listOf4 (narrowCC st)) (winningCardOf st) > 1 then
    if winningHandOf st = 4 ∧ straightSplit st then .split
    else if getOccurrence (listOf4 (winnersListOf st)) (multiWinMaxOf st) > 1 then
      finalHoleLoop st
    else .finish (topHandOf st)
  else .finish (jsIndexOf (listOf4 (narrowCC st)) (winningCardOf st))

/-- The pot arithmetic of `youWin` (lines 175-183): a split halves the pot
before crediting it, anything else pays the full pot. -/
def youWinPot (type : String) (thePot : ℚ) : ℚ :=
  if type = "split" then thePot / 2 else thePot

/-! ## The community-card draw loop (Poker.js lines 119-137)

`buildCommunityCards(howMany)` repeats `while (communityCards.length <
howMany)`: generate a random deck index; if that card's title is not in
`usedCardsArr`, push the card (its title parsed back into suit/value, which
round-trips since titles are `value-suit`) and record the title; otherwise
do nothing and loop again.  The random source `Math.random()` is injected
as a stream of naturals, reduced mod the deck length to model
`Math.floor(Math.random() * activeCards.length)`; `buildRun n` runs at most
`n` iterations of the while loop (the state is returned unchanged once the
loop condition fails). -/

def cardTitle (c : Card) : String := c.value ++ "-" ++ c.suit

structure DrawState where
  communityCards : List Card
  usedCardsArr : List String
deriving DecidableEq, Repr

/-- One iteration of the while-loop body. -/
def buildStep (deck : List Card) (st : DrawState) (idx : ℕ) : DrawState :=
  let c := deck.getD (idx % deck.length) ⟨"", ""⟩
  if cardTitle c ∈ st.usedCardsArr then st
  else
    { communityCards := st.communityCards ++ [c]
      usedCardsArr := st.usedCardsArr ++ [cardTitle c] }

def buildRun (deck : List Card) (howMany : ℕ) (stream : ℕ → ℕ) :
    ℕ → DrawState → DrawState
  | 0, st => st
  | n + 1, st =>
    if st.communityCards.length < howMany then
      buildRun deck howMany (fun k => stream (k + 1)) n (buildStep deck st (stream 0))
    else st

/-- The loop terminates iff after some number of iterations its condition
`communityCards.length < howMany` has become false. -/
def buildTerminates (deck : List Card) (howMany : ℕ) (stream : ℕ → ℕ)
    (st : DrawState) : Prop :=
  ∃ n, ¬ (buildRun deck howMany stream n st).communityCards.length < howMany

/-- The 52-card deck (one card per rank and suit). -/
def fullDeck : List Card :=
  (cardHeirarchy.map (fun v => suitArr.map (fun s => ({ value := v, suit := s } : Card)))).flatten

/-! ## The regret-matching decision engine (CFR.js / CFRPlayer.js)

JavaScript numbers including `Number.NEGATIVE_INFINITY` and the `NaN`
produced by `-Infinity * 0` are modelled by `JSNum` with IEEE-754
arithmetic rules (rationals standing in for finite doubles). -/

inductive JSNum where
  | num : ℚ → JSNum
  | negInf : JSNum
  | posInf : JSNum
  | nan : JSNum
deriving DecidableEq, Repr

def JSNum.mul : JSNum → JSNum → JSNum
  | nan, _ => nan
  | _, nan => nan
  | num a, num b => num (a * b)
  | num a, negInf => if a > 0 then negInf else if a < 0 then posInf else nan
  | num a, posInf => if a > 0 then posInf else if a < 0 then negInf else nan
  | negInf, num b => if b > 0 then negInf else if b < 0 then posInf else nan
  | posInf, num b => if b > 0 then posInf else if b < 0 then negInf else nan
  | negInf, negInf => posInf
  | negInf, posInf => negInf
  | posInf, negInf => negInf
  | posInf, posInf => posInf

def JSNum.add : JSNum → JSNum → JSNum
  | nan, _ => nan
  | _, nan => nan
  | num a, num b => num (a + b)
  | num _, negInf => negInf
  | num _, posInf => posInf
  | negInf, num _ => negInf
  | posInf, num _ => posInf
  | negInf, negInf => negInf
  | posInf, posInf => posInf
  | negInf, posInf => nan
  | posInf, negInf => nan

def JSNum.sub : JSNum → JSNum → JSNum
  | nan, _ => nan
  | _, nan => nan
  | num a, num b => num (a - b)
  | num _, negInf => posInf
  | num _, posInf => negInf
  | negInf, num _ => negInf
  | posInf, num _ => posInf
  | negInf, negInf => nan
  | posInf, posInf => nan
  | negInf, posInf => negInf
  | posInf, negInf => posInf

/-- The JS comparison `x > Number.NEGATIVE_INFINITY` (false for `NaN` and
for `-Infinity` itself). -/
def JSNum.gtNegInf : JSNum → Bool
  | num _ => true
  | posInf => true
  | negInf => false
  | nan => false

/-- A card as seen by the CFR module: `value` is read by the rank tally
(`console.error` and a skipped count when missing), `rank` by the straight
scan (`indexOf` of a missing rank is `-1`), `suit` by the flush logic. -/
structure RCard where
  value : Option String
  suit : String
  rank : Option String
deriving DecidableEq, Repr

def rankOrder : List String :=
  ["2", "3", "4", "5", "6", "7", "8", "9", "10", "J", "Q", "K", "A"]

def optIndexOfRank (v : Option String) : ℤ :=
  match v with
  | some s => jsIndexOf rankOrder s
  | none => -1

/-- `calculateHandStrength(playerHand, communityCards)` (CFR.js lines
241-315): hand-category base strength in `[0.2, 1.0]` plus a high-card
adjustment `(maxRankIndex / 13) * 0.1`; `Math.max` over the empty counts
list would make the result `-Infinity`. -/
def calculateHandStrength (playerHand communityCards : List RCard) : JSNum :=
  let allCards := playerHand ++ communityCards
  let vals := allCards.filterMap (fun c => c.value)
  let counts : List ℤ := vals.dedup.map (fun v => (vals.count v : ℤ))
  let maxCount := jsMaxInts counts
  let suits := allCards.map (fun c => c.suit)
  let suitCounts : List ℤ := suits.dedup.map (fun s => (suits.count s : ℤ))
  let maxSuitCount := jsMaxInts suitCounts
  let rankIndices := sortInts (allCards.map (fun c => optIndexOfRank c.rank))
  let isStraight := (List.range (rankIndices.length - 4)).any
    (fun i => rankIndices.getD (i + 4) 0 - rankIndices.getD i 0 == 4)
  let isFlush : Bool := match maxSuitCount with
    | some m => 5 ≤ m
    | none => false
  let strength : ℚ :=
    if isFlush = true ∧ isStraight = true then 1
    else if maxCount = some 4 then 9/10
    else if maxCount = some 3 ∧ (2 : ℤ) ∈ counts then 8/10
    else if isFlush = true then 7/10
    else if isStraight = true then 6/10
    else if maxCount = some 3 then 5/10
    else if (counts.filter (fun c => c = 2)).length ≥ 2 then 4/10
    else if maxCount = some 2 then 3/10
    else 2/10
  match jsMaxInts rankIndices with
  | some hc => JSNum.num (strength + ((hc : ℚ) / 13) * (1/10))
  | none => JSNum.negInf

/-- `card.suit.toLowerCase()`, modelled as per-character lowercasing
(equivalent on the ASCII suit names in play). -/
def jsToLower (s : String) : String := ⟨s.data.map Char.toLower⟩

/-- The `suitCounts` maximum of `calculateOuts` (CFR.js lines 336-346):
tally the lower-cased suits and scan the tallies starting from 0. -/
def maxSuitCountOf (cards : List RCard) : ℤ :=
  let suits := cards.map (fun c => jsToLower c.suit)
  suits.dedup.foldl
    (fun m s => if (suits.count s : ℤ) > m then (suits.count s : ℤ) else m) 0

/-- `calculateOuts` (CFR.js lines 331-358): the flush-draw heuristic —
9 outs one card short of a flush, 10 two cards short, otherwise 0. -/
def calculateOuts (playerHand communityCards : List RCard) : ℚ :=
  let maxSuitCount := maxSuitCountOf (playerHand ++ communityCards)
  if maxSuitCount = 4 then 9 else if maxSuitCount = 3 then 10 else 0

/-- The game state consumed by the CFR player's reward estimation. -/
structure CFRState where
  playerHand : List RCard
  communityCards : List RCard
  potSize : ℚ
  playerBet : ℚ
  remainingPlayers : ℚ
  canCheck : Bool
  canCall : Bool
  canRaise : Bool
  canAllIn : Bool
  canFold : Bool
  raiseAmount : ℚ
  playerStack : ℚ
  cardsDealt : ℚ
deriving DecidableEq, Repr

/-- `getImprovementFactor` (CFR.js lines 321-325):
`min((outs / (52 - cardsDealt)) * 2, 1)`. -/
def getImprovementFactor (st : CFRState) : ℚ :=
  let outs := calculateOuts st.playerHand st.communityCards
  let remainingCards := 52 - st.cardsDealt
  min ((outs / remainingCards) * 2) 1

/-- `CFRPlayer.isValidAction` (CFR.js lines 188-203). -/
def isValidAction (st : CFRState) (action : String) : Bool :=
  if action = "check" then st.canCheck
  else if action = "call" then st.canCall
  else if action = "raise" then st.canRaise
  else if action = "allin" then st.canAllIn
  else if action = "fold" then st.canFold
  else false

/-- `CFRPlayer.calculateReward` (CFR.js lines 117-182): the per-action
estimate, `-Infinity` when the capability flag is off, then the opponent
discount `* (2 / remainingPlayers)` (guarded by `> -Infinity`), then the
unguarded `* improvementFactor`. -/
def calculateReward (st : CFRState) (action : String) : JSNum :=
  let handStrength := calculateHandStrength st.playerHand st.communityCards
  let er : JSNum :=
    if action = "check" then
      (if st.canCheck then handStrength.mul (JSNum.num (1/2)) else JSNum.negInf)
    else if action = "call" then
      (if st.canCall then (handStrength.mul (JSNum.num st.potSize)).sub (JSNum.num st.playerBet)
       else JSNum.negInf)
    else if action = "raise" then
      (if st.canRaise then
        (handStrength.mul (JSNum.num (st.potSize + st.raiseAmount))).sub (JSNum.num st.playerBet)
       else JSNum.negInf)
    else if action = "allin" then
      (if st.canAllIn then
        (handStrength.mul (JSNum.num (st.potSize + st.playerStack))).sub (JSNum.num st.playerBet)
       else JSNum.negInf)
    else if action = "fold" then
      (if st.canFold then JSNum.num (-st.playerBet) else JSNum.negInf)
    else JSNum.negInf
  let er := if st.remainingPlayers > 1 ∧ er.gtNegInf = true
    then er.mul (JSNum.num (2 / st.remainingPlayers)) else er
  er.mul (JSNum.num (getImprovementFactor st))

/-- The declared action order of `CFRPlayer` (CFR.js line 6). -/
def cfrActions : List String := ["check", "call", "raise", "allin", "fold"]

/-- `CFRPlayer.calculateCounterfactualRewards` (CFR.js lines 101-111):
builds the rewards map over the declared actions, writing `-Infinity`
directly for invalid actions without calling `calculateReward`. -/
def calculateCounterfactualRewards (st : CFRState) : List (String × JSNum) :=
  cfrActions.map (fun a =>
    (a, if isValidAction st a then calculateReward st a else JSNum.negInf))

/-- The loop of `CFRPlayer.selectAction` (CFR.js lines 73-84): walk the
actions accumulating probability mass, return the first whose cumulative
mass exceeds the draw, else the supplied default (the last action). -/
def selectActionLoop (strategy : String → ℚ) (r : ℚ) :
    List String → ℚ → String → String
  | [], _, dflt => dflt
  | a :: rest, acc, dflt =>
    let acc' := acc + strategy a
    if r < acc' then a else selectActionLoop strategy r rest acc' dflt

def CFRPlayer.selectAction (strategy : String → ℚ) (r : ℚ) : String :=
  selectActionLoop strategy r cfrActions 0 (cfrActions.getLastD "")

/-- The loop of the standalone `selectAction` (CFRPlayer.js lines 92-102):
`for (action in strategy)` walks the strategy object's keys in insertion
order (modelled as an association list); the fall-through default is the
literal `'check'`. -/
def selectActionObj (r : ℚ) : List (String × ℚ) → ℚ → String
  | [], _ => "check"
  | (a, p) :: rest, acc =>
    let acc' := acc + p
    if r < acc' then a else selectActionObj r rest acc'

def selectActionStandalone (strategy : List (String × ℚ)) (r : ℚ) : String :=
  selectActionObj r strategy 0

/-- Spec-side description (§4.4 of the specification): the cumulative
probability mass of the first `k+1` actions. -/
def cumulativeMass (masses : List ℚ) (k : ℕ) : ℚ := (masses.take (k + 1)).sum

/-- Spec-side description of `selectAction`: the first action whose
cumulative mass exceeds the draw, with an explicit fall-through default. -/
def specFirstExceed (actions : List String) (masses : List ℚ) (r : ℚ)
    (dflt : String) : String :=
  match (List.range actions.length).find? (fun k => decide (r < cumulativeMass masses k)) with
  | some k => actions.getD k dflt
  | none => dflt

/-- The per-session regret state of a `CFRPlayer` (CFR.js lines 3-15). -/
structure CFRPlayerSt where
  actions : List String
  regretSum : String → JSNum
  strategySum : String → JSNum

/-- One key update of the regret map:
`regretSum[a] += counterfactualRewards[a] - reward`. -/
def regretUpd (cf : String → JSNum) (reward : JSNum) (rs : String → JSNum)
    (a : String) : String → JSNum :=
  fun b => if b = a then (rs a).add ((cf a).sub reward) else rs b

/-- `CFRPlayer.updateRegrets` (CFR.js lines 90-95): for every declared
action `a`, add `counterfactualRewards[a] - reward` to `regretSum[a]`.
The taken action is accepted but unused, as in the source. -/
def updateRegrets (p : CFRPlayerSt) (_actionTaken : String) (reward : JSNum)
    (counterfactualRewards : String → JSNum) : CFRPlayerSt :=
  { p with regretSum := p.actions.foldl (regretUpd counterfactualRewards reward) p.regretSum }

/-! ## Helper lemmas -/

lemma jsMax4_single (r : ℤ) (hr : 0 ≤ r) (i : Fin 4) :
    jsMax4 (fun j => if j = i then r else -1) = r := by
  fin_cases i
  all_goals simp [jsMax4]
  all_goals omega

lemma occ_single (r : ℤ) (hr : 0 ≤ r) (i : Fin 4) :
    getOccurrence (listOf4 (fun j => if j = i then r else -1)) r = 1 := by
  fin_cases i
  all_goals simp [listOf4, getOccurrence]
  all_goals try split_ifs
  all_goals omega

lemma idx_single (r : ℤ) (hr : 0 ≤ r) (i : Fin 4) :
    jsIndexOf (listOf4 (fun j => if j = i then r else -1)) r = ((i : ℕ) : ℤ) := by
  fin_cases i
  all_goals simp [listOf4, jsIndexOf, jsIndexOfAux]
  all_goals try split_ifs
  all_goals omega

/-- If every deck card's title is already in the used set, a loop iteration
never changes the state, so `buildRun` is the identity for any fuel. -/
lemma buildRun_exhausted (deck : List Card) (howMany : ℕ) (st : DrawState)
    (hall : ∀ c ∈ deck, cardTitle c ∈ st.usedCardsArr) (hne : deck ≠ []) :
    ∀ (stream : ℕ → ℕ) (n : ℕ), buildRun deck howMany stream n st = st := by
  intro stream n
  induction n generalizing stream with
  | zero => rfl
  | succ n ih =>
    show (if st.communityCards.length < howMany then _ else st) = st
    by_cases h : st.communityCards.length < howMany
    · rw [if_pos h]
      have hlen : (stream 0) % deck.length < deck.length :=
        Nat.mod_lt _ (List.length_pos.mpr hne)
      have hmem : deck.getD ((stream 0) % deck.length) ⟨"", ""⟩ ∈ deck := by
        rw [List.getD_eq_getElem deck _ hlen]
        exact List.getElem_mem hlen
      have hstep : buildStep deck st (stream 0) = st := by
        rw [buildStep, if_pos (hall _ hmem)]
      rw [hstep]
      exact ih _
    · rw [if_neg h]

/-- On an illegal action `calculateReward` produces `-Infinity` and then
still multiplies it by the improvement factor. -/
lemma calcReward_illegal (st : CFRState) (a : String)
    (hval : isValidAction st a = false) :
    calculateReward st a = JSNum.negInf.mul (JSNum.num (getImprovementFactor st)) := by
  by_cases h1 : a = "check"
  · subst h1
    simp [isValidAction] at hval
    simp [calculateReward, hval, JSNum.gtNegInf]
  · by_cases h2 : a = "call"
    · subst h2
      simp [isValidAction] at hval
      simp [calculateReward, hval, JSNum.gtNegInf]
    · by_cases h3 : a = "raise"
      · subst h3
        simp [isValidAction] at hval
        simp [calculateReward, hval, JSNum.gtNegInf]
      · by_cases h4 : a = "allin"
        · subst h4
          simp [isValidAction] at hval
          simp [calculateReward, hval, JSNum.gtNegInf]
        · by_cases h5 : a = "fold"
          · subst h5
            simp [isValidAction] at hval
            simp [calculateReward, hval, JSNum.gtNegInf]
          · simp [calculateReward, h1, h2, h3, h4, h5, JSNum.gtNegInf]

/-- When folding is allowed, the fold reward is `-playerBet` scaled by the
opponent discount and the improvement factor. -/
lemma fold_reward (st : CFRState) (h : st.canFold = true) :
    calculateReward st "fold" =
      JSNum.num (-st.playerBet *
        (if 1 < st.remainingPlayers then 2 / st.remainingPlayers else 1) *
        getImprovementFactor st) := by
  simp only [calculateReward]
  rw [if_pos trivial, if_pos h]
  by_cases hr : (1 : ℚ) < st.remainingPlayers
  · rw [if_pos ⟨hr, rfl⟩, if_pos hr]
    simp [JSNum.mul]
  · rw [if_neg (fun hc => hr hc.1), if_neg hr]
    simp [JSNum.mul]

lemma selectActionObj_eq_find (r : ℚ) :
    ∀ (l : List (String × ℚ)) (acc : ℚ),
    selectActionObj r l acc =
      (match (List.range l.length).find?
          (fun k => decide (r < acc + cumulativeMass (l.map Prod.snd) k)) with
      | some k => (l.map Prod.fst).getD k "check"
      | none => "check") := by
  intro l
  induction l with
  | nil =>
    intro acc
    rfl
  | cons hd rest ih =>
    intro acc
    obtain ⟨a, p⟩ := hd
    show (if r < acc + p then a else selectActionObj r rest (acc + p)) = _
    rw [List.length_cons, List.range_succ_eq_map, List.find?_cons]
    have hq0 : decide (r < acc + cumulativeMass (((a, p) :: rest).map Prod.snd) 0)
        = decide (r < acc + p) := by
      simp [cumulativeMass]
    rw [hq0]
    by_cases hr : r < acc + p
    · simp [hr]
    · rw [decide_eq_false hr]
      rw [if_neg hr]
      rw [List.find?_map, ih (acc + p)]
      have hcond : ((fun k => decide (r < acc + cumulativeMass (((a, p) :: rest).map Prod.snd) k)) ∘ Nat.succ)
          = fun k => decide (r < (acc + p) + cumulativeMass (rest.map Prod.snd) k) := by
        funext k
        simp only [Function.comp_apply, cumulativeMass, List.map_cons, List.take_succ_cons,
          List.sum_cons, add_assoc]
      rw [hcond]
      cases (List.range rest.length).find?
          (fun k => decide (r < (acc + p) + cumulativeMass (rest.map Prod.snd) k)) with
      | none => rfl
      | some k => simp

lemma selectActionLoop_eq_find (strategy : String → ℚ) (r : ℚ) :
    ∀ (acts : List String) (acc : ℚ) (dflt : String),
    selectActionLoop strategy r acts acc dflt =
      (match (List.range acts.length).find?
          (fun k => decide (r < acc + cumulativeMass (acts.map strategy) k)) with
      | some k => acts.getD k dflt
      | none => dflt) := by
  intro acts
  induction acts with
  | nil =>
    intro acc dflt
    rfl
  | cons a rest ih =>
    intro acc dflt
    show (if r < acc + strategy a then a
      else selectActionLoop strategy r rest (acc + strategy a) dflt) = _
    rw [List.length_cons, List.range_succ_eq_map, List.find?_cons]
    have hq0 : decide (r < acc + cumulativeMass ((a :: rest).map strategy) 0)
        = decide (r < acc + strategy a) := by
      simp [cumulativeMass]
    rw [hq0]
    by_cases hr : r < acc + strategy a
    · simp [hr]
    · rw [decide_eq_false hr]
      rw [if_neg hr]
      rw [List.find?_map, ih (acc + strategy a)]
      have hcond : ((fun k => decide (r < acc + cumulativeMass ((a :: rest).map strategy) k)) ∘ Nat.succ)
          = fun k => decide (r < (acc + strategy a) + cumulativeMass (rest.map strategy) k) := by
        funext k
        simp only [Function.comp_apply, cumulativeMass, List.map_cons, List.take_succ_cons,
          List.sum_cons, add_assoc]
      rw [hcond]
      cases (List.range rest.length).find?
          (fun k => decide (r < (acc + strategy a) + cumulativeMass (rest.map strategy) k)) with
      | none => rfl
      | some k => simp

lemma regretFold_not_mem (cf : String → JSNum) (reward : JSNum) :
    ∀ (l : List String) (init : String → JSNum) (a : String), a ∉ l →
    (l.foldl (regretUpd cf reward) init) a = init a := by
  intro l
  induction l with
  | nil =>
    intro init a _
    rfl
  | cons b rest ih =>
    intro init a ha
    have hab : a ≠ b := fun h => ha (h ▸ List.mem_cons_self b rest)
    show (rest.foldl (regretUpd cf reward) (regretUpd cf reward init b)) a = init a
    rw [ih _ a (fun h => ha (List.mem_cons_of_mem _ h))]
    simp [regretUpd, hab]

lemma regretFold_mem (cf : String → JSNum) (reward : JSNum) :
    ∀ (l : List String) (init : String → JSNum) (a : String), l.Nodup → a ∈ l →
    (l.foldl (regretUpd cf reward) init) a = (init a).add ((cf a).sub reward) := by
  intro l
  induction l with
  | nil =>
    intro init a _ h
    cases h
  | cons b rest ih =>
    intro init a hnd ha
    show (rest.foldl (regretUpd cf reward) (regretUpd cf reward init b)) a = _
    rcases List.mem_cons.mp ha with rfl | hmem
    · rw [regretFold_not_mem cf reward rest _ a (List.nodup_cons.mp hnd).1]
      simp [regretUpd]
    · have hab : a ≠ b := by
        rintro rfl
        exact (List.nodup_cons.mp hnd).1 hmem
      rw [ih _ a (List.nodup_cons.mp hnd).2 hmem]
      simp [regretUpd, hab]

/-! ## Concrete game states used by the claims -/

/-- A fresh per-hand state as `deal()` initializes it (Poker.js lines
864-878), with the given hole cards and community cards injected in place
of the random draws. -/
def freshGameSt (hands : Fin 4 → List Card) (comm : List Card) : GameSt :=
  { communityCards := comm.map CCElem.card
    resultList := ![0, 0, 0, 0]
    compareCards := ![0, 0, 0, 0]
    playerHighCards := ![0, 0, 0, 0]
    playerStraightHighCard := ![0, 0, 0, 0]
    plyrPairs := fun _ => []
    bestHoleCards := []
    activePlayers := [0, 1, 2, 3]
    playersHands := hands }

/-- A showdown state with a three-way true tie: the board itself is the
straight 4-5-6-7-8, players 0, 1 and 2 are active with equal categories,
equal `compareCards` and equal straight high cards, player 3 folded. -/
def c1TieState : GameSt :=
  { communityCards := [CCElem.card ⟨"four", "hearts"⟩, CCElem.card ⟨"five", "clubs"⟩,
      CCElem.card ⟨"six", "spades"⟩, CCElem.card ⟨"seven", "diamonds"⟩,
      CCElem.card ⟨"eight", "hearts"⟩]
    resultList := ![4, 4, 4, 4]
    compareCards := ![11, 11, 11, 11]
    playerHighCards := ![11, 11, 11, 11]
    playerStraightHighCard := ![6, 6, 6, 0]
    plyrPairs := fun _ => []
    bestHoleCards := [((2 : ℤ), (9 : ℤ)), (2, 11), (0, 9), (1, 3)]
    activePlayers := [0, 1, 2]
    playersHands := fun j =>
      if j = 0 then [⟨"four", "clubs"⟩, ⟨"jack", "hearts"⟩]
      else if j = 1 then [⟨"four", "diamonds"⟩, ⟨"king", "spades"⟩]
      else if j = 2 then [⟨"two", "clubs"⟩, ⟨"jack", "spades"⟩]
      else [⟨"three", "hearts"⟩, ⟨"five", "hearts"⟩] }

/-- A table where only seat 2 is still active, with score 0 (high card),
while the folded seats carry higher raw scores. -/
def c2SoleState : GameSt :=
  { communityCards := [CCElem.card ⟨"four", "hearts"⟩, CCElem.card ⟨"nine", "clubs"⟩,
      CCElem.card ⟨"king", "spades"⟩, CCElem.card ⟨"two", "diamonds"⟩,
      CCElem.card ⟨"seven", "hearts"⟩]
    resultList := ![9, 8, 0, 5]
    compareCards := ![12, 12, 11, 12]
    playerHighCards := ![0, 0, 0, 0]
    playerStraightHighCard := ![0, 0, 0, 0]
    plyrPairs := fun _ => []
    bestHoleCards := [((2 : ℤ), (9 : ℤ)), (2, 11), (0, 9), (1, 3)]
    activePlayers := [2]
    playersHands := fun j =>
      if j = 2 then [⟨"three", "clubs"⟩, ⟨"jack", "diamonds"⟩]
      else [⟨"ace", "hearts"⟩, ⟨"ace", "spades"⟩] }

/-- Hole 6♥ 7♥ with board 5♥ 2♥ K♥ 8♠ 9♣: five hearts (a flush) and the
off-suit straight 5-6-7-8-9, but no straight flush. -/
def c3State : GameSt := freshGameSt
  (fun i => if i = 0 then [⟨"six", "hearts"⟩, ⟨"seven", "hearts"⟩] else [])
  [⟨"five", "hearts"⟩, ⟨"two", "hearts"⟩, ⟨"king", "hearts"⟩,
   ⟨"eight", "spades"⟩, ⟨"nine", "clubs"⟩]

/-- Hole A♠ 2♦ with board 2♥ 3♣ 4♠ 5♦ 9♣: the hand contains the full wheel
ace-2-3-4-5 (with a duplicated deuce) and no higher straight. -/
def c4DupState : GameSt := freshGameSt
  (fun i => if i = 0 then [⟨"ace", "spades"⟩, ⟨"two", "diamonds"⟩] else [])
  [⟨"two", "hearts"⟩, ⟨"three", "clubs"⟩, ⟨"four", "spades"⟩,
   ⟨"five", "diamonds"⟩, ⟨"nine", "clubs"⟩]

/-- A showdown between seat 0 holding the wheel (straight high card index
3, `compareCards` 12 from the ace) and seat 1 holding the six-high straight
(straight high card index 4, `compareCards` 11 from a king). -/
def c4CompareState : GameSt :=
  { communityCards := [CCElem.card ⟨"two", "hearts"⟩, CCElem.card ⟨"three", "clubs"⟩,
      CCElem.card ⟨"four", "spades"⟩, CCElem.card ⟨"five", "diamonds"⟩,
      CCElem.card ⟨"nine", "clubs"⟩]
    resultList := ![4, 4, 0, 0]
    compareCards := ![12, 11, 0, 0]
    playerHighCards := ![0, 0, 0, 0]
    playerStraightHighCard := ![3, 4, 0, 0]
    plyrPairs := fun _ => []
    bestHoleCards := [((6 : ℤ), (12 : ℤ)), (4, 11), (-1, -1), (-1, -1)]
    activePlayers := [0, 1]
    playersHands := fun j =>
      if j = 0 then [⟨"ace", "spades"⟩, ⟨"eight", "diamonds"⟩]
      else if j = 1 then [⟨"six", "clubs"⟩, ⟨"king", "hearts"⟩]
      else [] }

/-- Hole 6♦ 7♥ with the flop 5♣ 8♠ 9♣: a straight at game step 2. -/
def c5State : GameSt := freshGameSt
  (fun i => if i = 0 then [⟨"six", "diamonds"⟩, ⟨"seven", "hearts"⟩] else [])
  [⟨"five", "clubs"⟩, ⟨"eight", "spades"⟩, ⟨"nine", "clubs"⟩]

/-- A draw state in which every card of the 52-card deck has already been
used and none of the requested community cards has been produced. -/
def c6ExhaustedState : DrawState :=
  { communityCards := []
    usedCardsArr := fullDeck.map cardTitle }

/-- A two-card deck, both cards already used. -/
def c6SmallDeck : List Card := [⟨"ace", "spades"⟩, ⟨"king", "hearts"⟩]

def c6SmallState : DrawState :=
  { communityCards := []
    usedCardsArr := ["ace-spades", "king-hearts"] }

/-- A state allowing fold with bet 10, four remaining players and a
four-card heart flush draw (improvement factor `18/47`). -/
def c7State : CFRState :=
  { playerHand := [{ value := some "ace", suit := "hearts", rank := some "A" },
                   { value := some "king", suit := "hearts", rank := some "K" }]
    communityCards := [{ value := some "queen", suit := "hearts", rank := some "Q" },
                       { value := some "jack", suit := "hearts", rank := some "J" },
                       { value := some "two", suit := "spades", rank := some "2" }]
    potSize := 100
    playerBet := 10
    remainingPlayers := 4
    canCheck := true
    canCall := false
    canRaise := true
    canAllIn := true
    canFold := true
    raiseAmount := 20
    playerStack := 1000
    cardsDealt := 5 }

/-- A state where checking is disallowed and no flush draw exists, so the
improvement factor is 0. -/
def c8State : CFRState :=
  { playerHand := [{ value := some "two", suit := "spades", rank := some "2" },
                   { value := some "three", suit := "hearts", rank := some "3" }]
    communityCards := [{ value := some "seven", suit := "diamonds", rank := some "7" },
                       { value := some "nine", suit := "clubs", rank := some "9" },
                       { value := some "jack", suit := "spades", rank := some "J" }]
    potSize := 50
    playerBet := 10
    remainingPlayers := 3
    canCheck := false
    canCall := true
    canRaise := false
    canAllIn := true
    canFold := true
    raiseAmount := 20
    playerStack := 500
    cardsDealt := 5 }

/-- A state where calling is disallowed but the improvement factor is
positive (four hearts). -/
def c8PosState : CFRState :=
  { playerHand := [{ value := some "ten", suit := "hearts", rank := some "10" },
                   { value := some "king", suit := "hearts", rank := some "K" }]
    communityCards := [{ value := some "queen", suit := "hearts", rank := some "Q" },
                       { value := some "jack", suit := "hearts", rank := some "J" },
                       { value := some "two", suit := "spades", rank := some "2" }]
    potSize := 60
    playerBet := 20
    remainingPlayers := 2
    canCheck := true
    canCall := false
    canRaise := true
    canAllIn := true
    canFold := true
    raiseAmount := 30
    playerStack := 400
    cardsDealt := 5 }

lemma c7_imp : getImprovementFactor c7State = 18/47 := by
  have houts : calculateOuts c7State.playerHand c7State.communityCards = 9 := by
    simp only [calculateOuts]
    rw [show maxSuitCountOf (c7State.playerHand ++ c7State.communityCards) = 4 from by decide]
    norm_num
  simp only [getImprovementFactor, houts]
  rw [show c7State.cardsDealt = 5 from rfl]
  rw [min_eq_left (by norm_num)]
  norm_num

lemma c8_imp : getImprovementFactor c8State = 0 := by
  have houts : calculateOuts c8State.playerHand c8State.communityCards = 0 := by
    simp only [calculateOuts]
    rw [show maxSuitCountOf (c8State.playerHand ++ c8State.communityCards) = 2 from by decide]
    norm_num
  simp only [getImprovementFactor, houts]
  norm_num

lemma c8Pos_imp : getImprovementFactor c8PosState = 18/47 := by
  have houts : calculateOuts c8PosState.playerHand c8PosState.communityCards = 9 := by
    simp only [calculateOuts]
    rw [show maxSuitCountOf (c8PosState.playerHand ++ c8PosState.communityCards) = 4 from by decide]
    norm_num
  simp only [getImprovementFactor, houts]
  rw [show c8PosState.cardsDealt = 5 from rfl]
  rw [min_eq_left (by norm_num)]
  norm_num

/-! ## The claims -/

/-- C1, as stated, is false: the split handler `youWin("split")` always
halves the pot, so a three-way true tie pays `1/2`, not `1/3`.  At the
concrete three-way straight tie `c1TieState` the resolver declares a split
and a pot of 300 is paid out as 150, which is not `300 / 3`. -/
theorem claim1_three_way_tie_half_pot :
    showdown c1TieState = Outcome.split ∧
      youWinPot "split" 300 = 150 ∧ (150 : ℚ) ≠ 300 / 3 :=
  ⟨by decide, by norm_num [youWinPot], by norm_num⟩

/-- C1 (amended): in every showdown state in which the tie cascade reaches
the straight true-tie test and it fires (no unique winning category, more
than one player on the best `compareCards`, winning category 4, and the
maximal straight high card is shared and held by player 0), the resolver
declares a split pot whose payout is exactly half the pot, regardless of
how many players are tied. -/
theorem claim1_split_always_half (st : GameSt) (pot : ℚ)
    (h1 : getOccurrence (listOf4 (maskRL st)) (winningHandOf st) ≠ 1)
    (h2 : getOccurrence (listOf4 (narrowCC st)) (winningCardOf st) > 1)
    (h3 : winningHandOf st = 4) (h4 : straightSplit st) :
    showdown st = Outcome.split ∧ youWinPot "split" pot = pot / 2 := by
  refine ⟨?_, by simp [youWinPot]⟩
  rw [showdown, if_neg h1, if_pos h2, if_pos ⟨h3, h4⟩]

/-- Witness for C1: the amended theorem applied at the concrete three-way
tie with a pot of 100. -/
theorem claim1_witness :
    showdown c1TieState = Outcome.split ∧ youWinPot "split" 100 = 100 / 2 :=
  claim1_split_always_half c1TieState 100 (by decide) (by decide) (by decide) (by decide)

/-- C2: whenever exactly one player remains in the active set, the
showdown declares that player the sole winner — whatever their score
(any score `0 ≤ r`) and whatever seat 0-3 they occupy — and the
non-split payout is the full pot. -/
theorem claim2_sole_active_wins (st : GameSt) (i : Fin 4) (pot : ℚ)
    (hact : st.activePlayers = [(i : ℕ)]) (hsc : 0 ≤ st.resultList i) :
    showdown st = Outcome.finish ((i : ℕ) : ℤ) ∧ youWinPot "default" pot = pot := by
  have hmask : maskRL st = fun j => if j = i then st.resultList i else -1 := by
    funext j
    by_cases hji : j = i
    · subst hji
      simp [maskRL, hact]
    · have hv : ¬((j : ℕ) = (i : ℕ)) := fun h => hji (Fin.val_injective h)
      simp [maskRL, hact, hv, hji]
  refine ⟨?_, by simp [youWinPot]⟩
  have hwin : winningHandOf st = st.resultList i := by
    rw [winningHandOf, hmask, jsMax4_single _ hsc]
  have hocc : getOccurrence (listOf4 (maskRL st)) (winningHandOf st) = 1 := by
    rw [hwin, hmask, occ_single _ hsc]
  have hidx : jsIndexOf (listOf4 (maskRL st)) (winningHandOf st) = ((i : ℕ) : ℤ) := by
    rw [hwin, hmask, idx_single _ hsc]
  rw [showdown, if_pos hocc, hidx]

/-- Witness for C2: seat 2 alone remains active with score 0 while folded
seats carry scores 9, 8 and 5; seat 2 wins the whole pot of 80. -/
theorem claim2_witness :
    showdown c2SoleState = Outcome.finish ((2 : ℕ) : ℤ) ∧ youWinPot "default" 80 = 80 :=
  claim2_sole_active_wins c2SoleState 2 80 rfl (by decide)

/-- C3 (code bug): the straight-flush check is the bare conjunction
`flush && straight` with no suit alignment (Poker.js line 451), so the
hand 6♥ 7♥ / 5♥ 2♥ K♥ 8♠ 9♣ — a heart flush plus the off-suit straight
5-6-7-8-9 — is scored as a straight flush (category 8). -/
theorem claim3_offsuit_straight_flush :
    (evaluateHandScore 0 4 c3State).resultList 0 = 8 ∧
      (evaluateHandScore 0 4 c3State).playerStraightHighCard 0 = 7 := by
  constructor
  · decide
  · decide

/-- C4 (code bug): the hand A♠ 2♦ / 2♥ 3♣ 4♠ 5♦ 9♣ contains the wheel
ace-2-3-4-5 and no higher straight, yet the evaluator scores it as a pair
(category 1), because the sorted index list keeps duplicates and the
duplicated deuce breaks the consecutive-run scan; and at an actual
showdown a wheel holder defeats a six-high straight holder (seat 0 wins),
because `compareCards` (the ace) is compared before straight high cards. -/
theorem claim4_wheel_bug :
    (evaluateHandScore 0 4 c4DupState).resultList 0 = 1 ∧
      showdown c4CompareState = Outcome.finish 0 := by
  constructor
  · decide
  · decide

/-- C5 (code bug): hand evaluation is not free of effects on the
community cards: at `c5State` (a straight at the flop) the two straight
scans overwrite `communityCards[0]`, replacing the 5♣ card object with the
plain number 1, so the sequence is not left unchanged. -/
theorem claim5_eval_overwrites_community :
    (evaluateHandScore 0 2 c5State).communityCards =
      [CCElem.num 1, CCElem.card ⟨"eight", "spades"⟩, CCElem.card ⟨"nine", "clubs"⟩] ∧
      (evaluateHandScore 0 2 c5State).communityCards ≠ c5State.communityCards := by
  constructor
  · decide
  · decide

/-- C6, as stated, is false: with the 52-card deck fully used and five
community cards requested, the rejection-sampling loop never terminates —
there is no `ExhaustedDeck` signal in the code, the loop body just never
makes progress. -/
theorem claim6_counterexample :
    ¬ buildTerminates fullDeck 5 (fun _ => 0) c6ExhaustedState := by
  rintro ⟨n, hn⟩
  rw [buildRun_exhausted fullDeck 5 c6ExhaustedState
      (fun c hc => List.mem_map_of_mem cardTitle hc) (by decide) _ n] at hn
  exact hn (by decide)

/-- C6 (amended): whenever every deck card is already used and more
community cards are requested than exist, each loop iteration leaves the
state unchanged, so the draw loop runs forever — it neither produces the
cards nor signals `ExhaustedDeck` (no such signal exists in the code);
termination when fresh cards remain depends on the injected random
stream. -/
theorem claim6_exhausted_loops_forever (deck : List Card) (howMany : ℕ)
    (st : DrawState) (stream : ℕ → ℕ)
    (hall : ∀ c ∈ deck, cardTitle c ∈ st.usedCardsArr)
    (hne : deck ≠ []) (hlen : st.communityCards.length < howMany) :
    (∀ n, buildRun deck howMany stream n st = st) ∧
      ¬ buildTerminates deck howMany stream st := by
  refine ⟨fun n => buildRun_exhausted deck howMany st hall hne stream n, ?_⟩
  rintro ⟨n, hn⟩
  rw [buildRun_exhausted deck howMany st hall hne stream n] at hn
  exact hn hlen

/-- Witness for C6: the amended theorem applied to a concrete two-card
deck whose cards are both used, with one card requested. -/
theorem claim6_witness :
    (∀ n, buildRun c6SmallDeck 1 (fun k => k) n c6SmallState = c6SmallState) ∧
      ¬ buildTerminates c6SmallDeck 1 (fun k => k) c6SmallState :=
  claim6_exhausted_loops_forever c6SmallDeck 1 c6SmallState (fun k => k)
    (by decide) (by decide) (by decide)

/-- C7, as stated, is false: at `c7State` (fold allowed, bet 10, four
players, improvement factor `18/47`) the fold reward is
`-10 * (2/4) * (18/47) = -90/47`, not `-playerBet = -10`. -/
theorem claim7_counterexample :
    calculateReward c7State "fold" ≠ JSNum.num (-c7State.playerBet) := by
  rw [fold_reward c7State rfl, c7_imp]
  rw [show c7State.remainingPlayers = 4 from rfl, show c7State.playerBet = 10 from rfl]
  rw [if_pos (by norm_num : (1 : ℚ) < 4)]
  simp only [ne_eq, JSNum.num.injEq]
  norm_num

/-- C7 (amended): when `canFold` is true the fold reward equals
`-playerBet` scaled by the opponent discount `2 / remainingPlayers`
(applied when more than one player remains) and by the improvement
factor; it is independent of hand strength and pot size, which do not
occur in the formula, but not of the opponent count or the improvement
factor. -/
theorem claim7_fold_reward_scaled (st : CFRState) (h : st.canFold = true) :
    calculateReward st "fold" =
      JSNum.num (-st.playerBet *
        (if 1 < st.remainingPlayers then 2 / st.remainingPlayers else 1) *
        getImprovementFactor st) :=
  fold_reward st h

/-- Witness for C7: the amended formula instantiated at `c7State`. -/
theorem claim7_witness :
    c7State.canFold = true ∧
      calculateReward c7State "fold" =
        JSNum.num (-c7State.playerBet *
          (if 1 < c7State.remainingPlayers then 2 / c7State.remainingPlayers else 1) *
          getImprovementFactor c7State) :=
  ⟨rfl, claim7_fold_reward_scaled c7State rfl⟩

/-- C8, as stated, is false: `calculateReward` on the illegal `check` at
`c8State` (improvement factor 0) returns `NaN` — the unguarded final
multiplication computes `-Infinity * 0` — rather than `NegativeInfinity`. -/
theorem claim8_counterexample :
    calculateReward c8State "check" = JSNum.nan ∧ JSNum.nan ≠ JSNum.negInf := by
  constructor
  · rw [calcReward_illegal c8State "check" (by decide), c8_imp]
    simp [JSNum.mul]
  · decide

/-- C8 (amended): the counterfactual-rewards map always carries
`NegativeInfinity` for every illegal action, because
`calculateCounterfactualRewards` assigns it directly without calling
`calculateReward`; `calculateReward` itself returns `NegativeInfinity` on
an illegal action only when the improvement factor is positive (it
returns `NaN` when the factor is zero). -/
theorem claim8_illegal_rewards :
    (∀ (st : CFRState) (a : String), a ∈ cfrActions → isValidAction st a = false →
      (calculateCounterfactualRewards st).lookup a = some JSNum.negInf) ∧
    (∀ (st : CFRState) (a : String), isValidAction st a = false →
      0 < getImprovementFactor st → calculateReward st a = JSNum.negInf) := by
  constructor
  · intro st a ha hval
    fin_cases ha <;> simp [calculateCounterfactualRewards, cfrActions, List.lookup, hval]
  · intro st a hval hpos
    rw [calcReward_illegal st a hval]
    simp [JSNum.mul, hpos]

/-- Witness for C8: both conjuncts instantiated — the rewards map carries
`-Infinity` for the illegal `check` at `c8State`, and `calculateReward`
returns `-Infinity` for the illegal `call` at `c8PosState`, whose
improvement factor `18/47` is positive. -/
theorem claim8_witness :
    (calculateCounterfactualRewards c8State).lookup "check" = some JSNum.negInf ∧
      calculateReward c8PosState "call" = JSNum.negInf :=
  ⟨claim8_illegal_rewards.1 c8State "check" (by decide) (by decide),
   claim8_illegal_rewards.2 c8PosState "call" (by decide)
     (by rw [c8Pos_imp]; norm_num)⟩

/-- C9, as stated, is false: the standalone `selectAction` falls through
to the literal `'check'` — the first declared action, not the last — when
the draw is never exceeded (here: an all-zero strategy over check, match,
raise, allin and a draw of `1/2`). -/
theorem claim9_counterexample :
    selectActionStandalone [("check", 0), ("match", 0), ("raise", 0), ("allin", 0)] (1/2)
        = "check" ∧ ("check" : String) ≠ "allin" := by
  constructor
  · show (if (1 : ℚ)/2 < 0 + 0 then "check" else _) = "check"
    norm_num [selectActionObj]
  · decide

/-- C9 (amended): both selectors walk their actions in declared order and
return the first action whose cumulative probability mass exceeds the
draw; when no cumulative mass exceeds the draw, `CFRPlayer.selectAction`
returns the last declared action (`fold`), while the standalone
`selectAction` returns `check`, its first declared action. -/
theorem claim9_first_exceed_defaults (strategy : String → ℚ) (r : ℚ) :
    CFRPlayer.selectAction strategy r
        = specFirstExceed cfrActions (cfrActions.map strategy) r "fold" ∧
    ∀ l : List (String × ℚ),
      selectActionStandalone l r
        = specFirstExceed (l.map Prod.fst) (l.map Prod.snd) r "check" := by
  constructor
  · rw [CFRPlayer.selectAction, selectActionLoop_eq_find]
    unfold specFirstExceed
    simp only [zero_add]
    rfl
  · intro l
    rw [selectActionStandalone, selectActionObj_eq_find]
    unfold specFirstExceed
    simp only [zero_add, List.length_map]

/-- C10: `updateRegrets` changes only the regret map — `strategySum` and
the action list are untouched, each declared action's regret grows by
`counterfactualRewards[a] - reward`, and keys outside the action list are
untouched. -/
theorem claim10_updateRegrets_frame (p : CFRPlayerSt) (actionTaken : String)
    (reward : JSNum) (cf : String → JSNum) (hnd : p.actions.Nodup) :
    (updateRegrets p actionTaken reward cf).strategySum = p.strategySum ∧
    (updateRegrets p actionTaken reward cf).actions = p.actions ∧
    (∀ a ∈ p.actions, (updateRegrets p actionTaken reward cf).regretSum a
        = (p.regretSum a).add ((cf a).sub reward)) ∧
    (∀ a, a ∉ p.actions → (updateRegrets p actionTaken reward cf).regretSum a
        = p.regretSum a) :=
  ⟨rfl, rfl,
   fun a ha => regretFold_mem cf reward p.actions p.regretSum a hnd ha,
   fun a ha => regretFold_not_mem cf reward p.actions p.regretSum a ha⟩

/-- A concrete `CFRPlayer` regret state: the declared five actions, zero
regrets and zero strategy sums. -/
def c10Player : CFRPlayerSt :=
  { actions := cfrActions
    regretSum := fun _ => JSNum.num 0
    strategySum := fun _ => JSNum.num 0 }

/-- Witness for C10: the frame theorem applied at the concrete fresh
player state with a taken action, a baseline reward and a constant
counterfactual map. -/
theorem claim10_witness :
    (updateRegrets c10Player "call" (JSNum.num 1) (fun _ => JSNum.num 3)).strategySum
        = c10Player.strategySum ∧
    (updateRegrets c10Player "call" (JSNum.num 1) (fun _ => JSNum.num 3)).actions
        = c10Player.actions ∧
    (∀ a ∈ c10Player.actions,
      (updateRegrets c10Player "call" (JSNum.num 1) (fun _ => JSNum.num 3)).regretSum a
        = (c10Player.regretSum a).add (((fun _ => JSNum.num 3) a).sub (JSNum.num 1))) ∧
    (∀ a, a ∉ c10Player.actions →
      (updateRegrets c10Player "call" (JSNum.num 1) (fun _ => JSNum.num 3)).regretSum a
        = c10Player.regretSum a) :=
  claim10_updateRegrets_frame c10Player "call" (JSNum.num 1) (fun _ => JSNum.num 3) (by decide)

end BattlePoker
